import Mathlib

/-!
Verification of the Trivia backend (`backend/flaskr/__init__.py`): a shallow
embedding of the paginator, the quiz selector (`get_quizzes`), and the
question create / delete / search handlers, together with theorems settling
the specification's claims about them.

The SQLAlchemy model layer (`models.py`: `Question.insert`, `Question.delete`,
`Question.format`) is not part of the handler file; where a handler relies on
it, the corresponding definition is modelled from the spec and marked so in
its doc comment.
-/

namespace Trivia

/-- A question record, after `models.py`'s `Question` columns as described by
the spec's data model: identifier (unique, assigned by storage), question
text, answer text, category reference, difficulty. -/
structure Question where
  id : Nat
  question : String
  answer : String
  category : Nat
  difficulty : Nat
deriving Repr, DecidableEq

/-- `QUESTIONS_PER_PAGE = 10` from `flaskr/__init__.py`. -/
def QUESTIONS_PER_PAGE : Nat := 10

/-- Normalisation of one Python slice endpoint for a list of length `len`:
a negative index counts from the end and clamps at 0, a non-negative index
clamps at `len`.  This is CPython's `slice.indices` behaviour for step 1. -/
def pySliceIdx (len : Nat) (i : Int) : Nat :=
  if i < 0 then ((len : Int) + i).toNat else min i.toNat len

/-- Python's `xs[start:stop]` (step 1): the elements with positions in
`[pySliceIdx len start, pySliceIdx len stop)`. -/
def pySlice {α : Type} (start stop : Int) (xs : List α) : List α :=
  (xs.take (pySliceIdx xs.length stop)).drop (pySliceIdx xs.length start)

/-- `paginate` from `flaskr/__init__.py` (lines 44-52): slice
`[(page-1)*10 : page*10]` of the formatted selection.  The per-item
`format()` call is elementwise and irrelevant to the slicing, so the
embedding is generic in the item type. -/
def paginate {α : Type} (page : Int) (selection : List α) : List α :=
  pySlice ((page - 1) * QUESTIONS_PER_PAGE) (page * QUESTIONS_PER_PAGE) selection

/-- The eligible set computed by `get_quizzes` (lines 248-253): the stored
questions, filtered by category when `category_id` is nonzero, minus those
whose `id` is listed in `previous_questions` (`Question.id.notin_`). -/
def eligible (store : List Question) (previous_questions : List Nat)
    (category_id : Nat) : List Question :=
  if category_id = 0 then
    store.filter (fun q => decide (q.id ∉ previous_questions))
  else
    (store.filter (fun q => decide (q.category = category_id))).filter
      (fun q => decide (q.id ∉ previous_questions))

/-- `get_quizzes` (lines 241-270): compute the eligible set; if it is empty the
formatted question is `None`, otherwise the element at index
`randint(0, len-1)` is returned.  The random draw is an explicit input `r`
(reduced modulo the eligible length so the embedding is total; the code only
ever draws `r` below the length).  The handler body contains no `abort`, so
the paired HTTP status is 200 on every path. -/
def get_quizzes (store : List Question) (previous_questions : List Nat)
    (category_id : Nat) (r : Nat) : Option Question × Nat :=
  let questions := eligible store previous_questions category_id
  if h : questions.length = 0 then
    (none, 200)
  else
    (some (questions.get ⟨r % questions.length,
      Nat.mod_lt _ (Nat.pos_of_ne_zero h)⟩), 200)

/-- `Question.query.get(question_id)`: the stored question with the given
primary key, if any. -/
def query_get (store : List Question) (question_id : Nat) : Option Question :=
  store.find? (fun q => q.id == question_id)

/-- Modelled from the spec: `question.delete()` calls `Question.delete` in
`models.py`, which is absent from the handler file; per the spec's storage
contract it removes that one record from the store. -/
def question_delete (store : List Question) (question_id : Nat) : List Question :=
  store.eraseP (fun q => q.id == question_id)

/-- `delete_questions` (lines 126-142): a missing id aborts with 404 and
leaves storage untouched; otherwise the record is deleted and the body
reports the id and `len(Question.query.all())` after the deletion.
Result: (new store, status, (deleted, total_questions) when successful). -/
def delete_questions (store : List Question) (question_id : Nat) :
    List Question × Nat × Option (Nat × Nat) :=
  match query_get store question_id with
  | none => (store, 404, none)
  | some _ =>
      let store' := question_delete store question_id
      (store', 200, some (question_id, store'.length))

/-- The JSON body of POST /questions as the handler reads it:
`data.get('searchTerm')` plus the four bracket accesses, each key possibly
absent. -/
structure CreateBody where
  searchTerm : Option String
  question : Option String
  answer : Option String
  category : Option Nat
  difficulty : Option Nat
deriving Repr, DecidableEq

/-- Modelled from the spec: storage assigns the new question a fresh unique
identifier (one past the largest in use). -/
def freshId (store : List Question) : Nat :=
  store.foldr (fun q m => max q.id m) 0 + 1

/-- Modelled from the spec: `new.insert()` calls `Question.insert` in
`models.py`, which is absent from the handler file; per the spec's storage
contract it adds the record under a storage-assigned identifier. -/
def insertQuestion (store : List Question) (q a : String) (c d : Nat) :
    List Question :=
  store ++ [⟨freshId store, q, a, c, d⟩]

/-- `b` is a character-wise prefix of the second list. -/
def prefixAt : List Char → List Char → Bool
  | [], _ => true
  | _ :: _, [] => false
  | a :: as, b :: bs => a == b && prefixAt as bs

/-- The needle occurs contiguously somewhere in the haystack. -/
def containsSub (needle : List Char) : List Char → Bool
  | [] => prefixAt needle []
  | c :: t => prefixAt needle (c :: t) || containsSub needle t

/-- The characters of a string, lower-cased. -/
def toLowerList (s : String) : List Char :=
  s.data.map Char.toLower

/-- `Question.question.ilike('%' + term + '%')` (line 172): the term occurs in
the question text as a case-insensitive substring. -/
def ilikeMatch (text term : String) : Bool :=
  containsSub (toLowerList term) (toLowerList text)

/-- The search branch of `create_question` (lines 170-182): filter the store
by case-insensitive substring match, paginate, and report `len(results)` —
the length of the returned page — as `total_questions`.
Result: (questions page, total_questions, status). -/
def searchQuestions (store : List Question) (term : String) (page : Int) :
    List Question × Nat × Nat :=
  let query := store.filter (fun q => ilikeMatch q.question term)
  let results := paginate page query
  (results, results.length, 200)

/-- The create branch of `create_question` (lines 163-205) with respect to
storage: when `searchTerm` is present the search branch runs and storage is
untouched; otherwise the four bracket accesses `data['question']`,
`data['answer']`, `data['category']`, `data['difficulty']` raise `KeyError`
for a missing key, caught by the handler as 422, and with all four present
the question is inserted and `len(Question.query.all())` reported.
Result: (new store, status, reported total_questions when created). -/
def create_question (store : List Question) (body : CreateBody) :
    List Question × Nat × Option Nat :=
  match body.searchTerm with
  | some _ => (store, 200, none)
  | none =>
      match body.question, body.answer, body.category, body.difficulty with
      | some q, some a, some c, some d =>
          let store' := insertQuestion store q a c d
          (store', 200, some store'.length)
      | _, _, _, _ => (store, 422, none)

/-- A two-element store used to instantiate the universally quantified
theorems on concrete data. -/
def qA : Question := ⟨1, "What is H2O?", "Water", 1, 1⟩

/-- Second concrete question, in category 2. -/
def qB : Question := ⟨2, "Who painted this?", "Monet", 2, 3⟩

/-- Eleven stored questions whose text all matches the search term "a". -/
def storeEleven : List Question :=
  (List.range 11).map (fun i => ⟨i + 1, "abc", "x", 1, 1⟩)

theorem pySliceIdx_ofNat (len n : Nat) :
    pySliceIdx len (n : Int) = min n len := by
  simp [pySliceIdx]

theorem take_min_length {α : Type} (xs : List α) (n : Nat) :
    xs.take (min n xs.length) = xs.take n := by
  rw [List.take_eq_take]
  simp [Nat.min_assoc]

theorem drop_min_length {α : Type} {β : Type} (xs : List α) (ys : List β)
    (h : ys.length ≤ xs.length) (n : Nat) :
    ys.drop (min n xs.length) = ys.drop n := by
  rcases Nat.le_total n xs.length with h' | h'
  · rw [Nat.min_eq_left h']
  · rw [Nat.min_eq_right h']
    rw [List.drop_eq_nil_of_le h, List.drop_eq_nil_of_le (le_trans h h')]

/-- For a positive page number the Python slice reduces to take/drop on
natural numbers. -/
theorem paginate_pos (p : Nat) (hp : 1 ≤ p) {α : Type} (xs : List α) :
    paginate (p : Int) xs = (xs.take (p * 10)).drop ((p - 1) * 10) := by
  have hcast : ((p : Int) - 1) * QUESTIONS_PER_PAGE = (((p - 1) * 10 : Nat) : Int) := by
    have : ((p - 1 : Nat) : Int) = (p : Int) - 1 := by
      omega
    rw [Nat.cast_mul, this]
    norm_num [QUESTIONS_PER_PAGE]
  have hcast2 : (p : Int) * QUESTIONS_PER_PAGE = ((p * 10 : Nat) : Int) := by
    rw [Nat.cast_mul]
    norm_num [QUESTIONS_PER_PAGE]
  rw [paginate, pySlice, hcast, hcast2, pySliceIdx_ofNat, pySliceIdx_ofNat,
    take_min_length]
  exact drop_min_length xs (xs.take (p * 10)) (by simp) _

/-- Positive pages, take-then-drop swapped into drop-then-take form. -/
theorem paginate_pos_drop_take (p : Nat) (hp : 1 ≤ p) {α : Type} (xs : List α) :
    paginate (p : Int) xs = (xs.drop ((p - 1) * 10)).take 10 := by
  rw [paginate_pos p hp xs]
  have h10 : p * 10 = (p - 1) * 10 + 10 := by omega
  rw [h10, List.drop_take]
  congr 1
  omega

/-- Concatenation of the first `k` pages is the first `k*10` items. -/
theorem paginate_join_take {α : Type} (xs : List α) (k : Nat) :
    ((List.range k).map (fun i => paginate ((i + 1 : Nat) : Int) xs)).flatten
      = xs.take (k * 10) := by
  induction k with
  | zero => simp
  | succ k ih =>
      rw [List.range_succ, List.map_append, List.flatten_append, ih]
      have hpage : paginate ((k + 1 : Nat) : Int) xs = (xs.drop (k * 10)).take 10 := by
        rw [paginate_pos_drop_take (k + 1) (by omega) xs]
        simp
      simp only [List.map_cons, List.map_nil, List.flatten_cons, List.flatten_nil,
        List.append_nil, hpage]
      rw [← List.take_add]
      congr 1
      ring

theorem mem_eligible {store : List Question} {prev : List Nat} {cat : Nat}
    {q : Question} (h : q ∈ eligible store prev cat) :
    q ∈ store ∧ q.id ∉ prev ∧ (cat ≠ 0 → q.category = cat) := by
  unfold eligible at h
  by_cases hc : cat = 0
  · rw [if_pos hc] at h
    rcases List.mem_filter.1 h with ⟨hq, hd⟩
    exact ⟨hq, by simpa using hd, fun hne => absurd hc hne⟩
  · rw [if_neg hc] at h
    rcases List.mem_filter.1 h with ⟨hq1, hd⟩
    rcases List.mem_filter.1 hq1 with ⟨hq, hcat⟩
    exact ⟨hq, by simpa using hd, fun _ => by simpa using hcat⟩

theorem eligible_sublist (store : List Question) (prev : List Nat) (cat : Nat) :
    (eligible store prev cat).Sublist store := by
  unfold eligible
  by_cases hc : cat = 0
  · rw [if_pos hc]
    exact List.filter_sublist _
  · rw [if_neg hc]
    exact (List.filter_sublist _).trans (List.filter_sublist _)

theorem get_quizzes_eval {store : List Question} {prev : List Nat}
    {cat r : Nat} (h0 : (eligible store prev cat).length ≠ 0) :
    (get_quizzes store prev cat r).1
      = some ((eligible store prev cat).get
          ⟨r % (eligible store prev cat).length,
            Nat.mod_lt _ (Nat.pos_of_ne_zero h0)⟩) := by
  simp only [get_quizzes]
  rw [dif_neg h0]

theorem get_quizzes_some_mem {store : List Question} {prev : List Nat}
    {cat r : Nat} {q : Question}
    (h : (get_quizzes store prev cat r).1 = some q) :
    q ∈ eligible store prev cat := by
  by_cases h0 : (eligible store prev cat).length = 0
  · rw [get_quizzes] at h
    rw [dif_pos h0] at h
    simp at h
  · rw [get_quizzes_eval h0] at h
    injection h with h
    rw [← h]
    exact List.get_mem _ _ _

/-- C1: for every quiz request (any category filter, any store contents), a
returned question's identifier is never present in `previous_questions`. -/
theorem quiz_never_repeats_previous (store : List Question) (prev : List Nat)
    (cat : Nat) (r : Nat) (q : Question)
    (h : (get_quizzes store prev cat r).1 = some q) :
    q.id ∉ prev :=
  (mem_eligible (get_quizzes_some_mem h)).2.1

/-- Witness for C1 on concrete data. -/
theorem quiz_never_repeats_previous_witness : Question.id qA ∉ [2] :=
  quiz_never_repeats_previous [qA] [2] 0 0 qA rfl

/-- C2: the quiz selector returns `none` iff the eligible set (category filter
minus exclusions) is empty, and otherwise some question of the eligible set. -/
theorem quiz_none_iff_exhausted (store : List Question) (prev : List Nat)
    (cat : Nat) (r : Nat) :
    ((get_quizzes store prev cat r).1 = none ↔ eligible store prev cat = [])
    ∧ (∀ q, (get_quizzes store prev cat r).1 = some q →
        q ∈ eligible store prev cat) := by
  refine ⟨?_, fun q h => get_quizzes_some_mem h⟩
  by_cases h0 : (eligible store prev cat).length = 0
  · rw [get_quizzes, dif_pos h0]
    simpa using List.length_eq_zero.1 h0
  · rw [get_quizzes_eval h0]
    constructor
    · intro h
      exact absurd h (by simp)
    · intro h
      exact absurd (by rw [h]; rfl) h0

/-- Witness for C2 on concrete data: category 2 matches nothing in the store. -/
theorem quiz_none_iff_exhausted_witness :
    (get_quizzes [qA] [1] 2 0).1 = none :=
  ((quiz_none_iff_exhausted [qA] [1] 2 0).1).mpr rfl

/-- C5: the quiz handler's status is 200 on every path, and a nonzero supplied
category outside the known set leaves the eligible set empty, so the response
carries a null question rather than an error. -/
theorem quiz_endpoint_always_200 (store : List Question) (known prev : List Nat)
    (cat r : Nat) :
    (get_quizzes store prev cat r).2 = 200
    ∧ (cat ≠ 0 → (∀ q ∈ store, q.category ∈ known) → cat ∉ known →
        (get_quizzes store prev cat r).1 = none) := by
  constructor
  · rw [get_quizzes]
    split
    · rfl
    · rfl
  · intro hc hall hnot
    have helig : eligible store prev cat = [] := by
      unfold eligible
      rw [if_neg hc]
      have hfil : store.filter (fun q => decide (q.category = cat)) = [] := by
        rw [List.filter_eq_nil_iff]
        intro q hq
        simp only [decide_eq_true_eq]
        intro hcat
        exact hnot (hcat ▸ hall q hq)
      rw [hfil]
      rfl
    rw [get_quizzes, dif_pos (by rw [helig]; rfl)]

/-- Witness for C5 on concrete data: category 5 is not a known category. -/
theorem quiz_endpoint_always_200_witness :
    (get_quizzes [qA] [] 5 0).2 = 200 ∧ (get_quizzes [qA] [] 5 0).1 = none :=
  ⟨(quiz_endpoint_always_200 [qA] [1] [] 5 0).1,
   (quiz_endpoint_always_200 [qA] [1] [] 5 0).2 (by decide) (by decide)
     (by decide)⟩

/-- C9: with the random source modelled as an explicit input `r` ranging over
`[0, |eligible|)`, each eligible question is selected for exactly one value of
`r`, independent of its position (store identifiers pairwise distinct). -/
theorem quiz_draw_uniform (store : List Question) (prev : List Nat) (cat : Nat)
    (hnd : (store.map Question.id).Nodup) (q : Question)
    (hq : q ∈ eligible store prev cat) :
    ∃! r : Nat, r < (eligible store prev cat).length
      ∧ (get_quizzes store prev cat r).1 = some q := by
  have hsub : (eligible store prev cat).Sublist store :=
    eligible_sublist store prev cat
  have hnodup : (eligible store prev cat).Nodup :=
    List.Nodup.of_map Question.id (hnd.sublist (hsub.map Question.id))
  obtain ⟨i, hget⟩ := List.get_of_mem hq
  have h0 : (eligible store prev cat).length ≠ 0 := by
    intro h
    exact absurd (i.2.trans_eq h) (by omega)
  refine ⟨i.1, ⟨i.2, ?_⟩, ?_⟩
  · rw [get_quizzes_eval h0]
    congr 1
    rw [← hget]
    congr 1
    exact Fin.ext (Nat.mod_eq_of_lt i.2)
  · rintro r' ⟨hr', hsel⟩
    rw [get_quizzes_eval h0] at hsel
    injection hsel with hsel
    rw [← hget] at hsel
    have := (List.Nodup.get_inj_iff hnodup).1 hsel
    have hval : r' % (eligible store prev cat).length = i.1 :=
      congrArg Fin.val this
    rw [Nat.mod_eq_of_lt hr'] at hval
    exact hval

/-- Witness for C9 on concrete data. -/
theorem quiz_draw_uniform_witness :
    ∃! r : Nat, r < (eligible [qA, qB] [] 0).length
      ∧ (get_quizzes [qA, qB] [] 0 r).1 = some qA :=
  quiz_draw_uniform [qA, qB] [] 0 (by decide) qA (by decide)

/-- C3: a positive page `p` is exactly the sub-sequence from index `(p-1)*10`
inclusive to `p*10` exclusive, and a page beyond the end of the data is the
empty sequence (no error is possible: the function is total). -/
theorem paginate_page_slice (p : Nat) (hp : 1 ≤ p) {α : Type} (xs : List α) :
    paginate (p : Int) xs = (xs.take (p * 10)).drop ((p - 1) * 10)
    ∧ (xs.length ≤ (p - 1) * 10 → paginate (p : Int) xs = []) := by
  refine ⟨paginate_pos p hp xs, fun hlen => ?_⟩
  rw [paginate_pos p hp xs]
  refine List.drop_eq_nil_of_le ?_
  rw [List.length_take]
  omega

/-- Witness for C3: page 3 of a two-element list is empty. -/
theorem paginate_page_slice_witness :
    paginate ((3 : Nat) : Int) ([0, 1] : List Nat) = [] :=
  (paginate_page_slice 3 (by decide) [0, 1]).2 (by decide)

/-- C4: every positive page has at most 10 elements, and concatenating pages
1 through ⌈length/10⌉ reconstructs the item list exactly. -/
theorem paginate_pages_reconstruct {α : Type} (xs : List α) :
    (∀ p : Nat, 1 ≤ p → (paginate (p : Int) xs).length ≤ 10)
    ∧ ((List.range ((xs.length + 9) / 10)).map
        (fun i => paginate ((i + 1 : Nat) : Int) xs)).flatten = xs := by
  constructor
  · intro p hp
    rw [paginate_pos_drop_take p hp xs]
    exact List.length_take_le 10 _
  · rw [paginate_join_take]
    apply List.take_of_length_le
    have h1 := Nat.div_add_mod (xs.length + 9) 10
    have h2 : (xs.length + 9) % 10 < 10 := Nat.mod_lt _ (by norm_num)
    omega

/-- Witness for C4 on a concrete two-element list. -/
theorem paginate_pages_reconstruct_witness :
    (paginate ((1 : Nat) : Int) ([3, 4] : List Nat)).length ≤ 10
    ∧ ((List.range ((([3, 4] : List Nat).length + 9) / 10)).map
        (fun i => paginate ((i + 1 : Nat) : Int) ([3, 4] : List Nat))).flatten
      = [3, 4] :=
  ⟨(paginate_pages_reconstruct [3, 4]).1 1 (by decide),
   (paginate_pages_reconstruct [3, 4]).2⟩

/-- C10: a page number of 0 yields the empty sequence for every item list,
while page -1 on a 20-item list yields items 0 through 9 — Python's negative
slice indices count from the end of the list — rather than an empty sequence
or an error. -/
theorem paginate_nonpositive_pages :
    (∀ (α : Type) (xs : List α), paginate (0 : Int) xs = [])
    ∧ paginate (-1 : Int) (List.range 20) = List.range 10 := by
  constructor
  · intro α xs
    simp [paginate, pySlice, pySliceIdx, QUESTIONS_PER_PAGE]
  · decide

/-- C7: deleting an id with no matching question yields 404 and leaves the
store untouched; deleting an existing id removes exactly that one record
(every other question is kept, in order) and reports the previous total minus
one. -/
theorem delete_question_spec (store : List Question) (qid : Nat) :
    ((∀ q ∈ store, q.id ≠ qid) → delete_questions store qid = (store, 404, none))
    ∧ (∀ q ∈ store, q.id = qid →
        (delete_questions store qid).2.1 = 200
        ∧ (delete_questions store qid).2.2 = some (qid, store.length - 1)
        ∧ ∃ qd l₁ l₂, qd.id = qid ∧ (∀ b ∈ l₁, b.id ≠ qid)
            ∧ store = l₁ ++ qd :: l₂
            ∧ (delete_questions store qid).1 = l₁ ++ l₂) := by
  constructor
  · intro hall
    have hfind : store.find? (fun q => q.id == qid) = none :=
      List.find?_eq_none.2 (fun q hq => by simpa using hall q hq)
    simp [delete_questions, query_get, hfind]
  · intro q hq hid
    have hp : (fun x => x.id == qid) q = true := by simpa using hid
    obtain ⟨qd, l₁, l₂, hl₁, hpqd, hsplit, herase⟩ :=
      List.exists_of_eraseP (p := fun x => x.id == qid) hq hp
    have hsome : (store.find? (fun q => q.id == qid)).isSome :=
      List.find?_isSome.2 ⟨q, hq, hp⟩
    obtain ⟨x, hx⟩ := Option.isSome_iff_exists.1 hsome
    have hdel : delete_questions store qid
        = (question_delete store qid, 200,
            some (qid, (question_delete store qid).length)) := by
      simp [delete_questions, query_get, hx]
    have hlen : (question_delete store qid).length = store.length - 1 := by
      unfold question_delete
      rw [List.length_eraseP_of_mem hq hp]
    refine ⟨by rw [hdel], by rw [hdel, hlen], qd, l₁, l₂, by simpa using hpqd,
      fun b hb => by simpa using hl₁ b hb, hsplit, ?_⟩
    rw [hdel]
    exact herase

/-- Witness for C7: deleting the absent id 3 and the present id 1 from a
two-question store. -/
theorem delete_question_spec_witness :
    delete_questions [qA, qB] 3 = ([qA, qB], 404, none)
    ∧ (delete_questions [qA, qB] 1).2.1 = 200
    ∧ (delete_questions [qA, qB] 1).2.2
        = some (1, ([qA, qB] : List Question).length - 1) :=
  ⟨(delete_question_spec [qA, qB] 3).1 (by decide),
   ((delete_question_spec [qA, qB] 1).2 qA (by decide) rfl).1,
   ((delete_question_spec [qA, qB] 1).2 qA (by decide) rfl).2.1⟩

theorem prefixAt_refl (l : List Char) : prefixAt l l = true := by
  induction l with
  | nil => rfl
  | cons c t ih => simp [prefixAt, ih]

theorem containsSub_self (l : List Char) : containsSub l l = true := by
  cases l with
  | nil => rfl
  | cons c t => simp [containsSub, prefixAt_refl]

theorem ilikeMatch_self (s : String) : ilikeMatch s s = true :=
  containsSub_self (toLowerList s)

/-- C6 counterexample: a create request with all four keys present but an
empty question text is accepted with status 200 — it is not rejected as 422,
contradicting the claimed non-emptiness validation. -/
theorem create_empty_field_accepted :
    (create_question [] ⟨none, some "", some "a", some 1, some 1⟩).2.1 = 200
    ∧ (create_question [] ⟨none, some "", some "a", some 1, some 1⟩).2.1 ≠ 422 := by
  constructor
  · rfl
  · decide

/-- C6 (amended): the handler validates presence only.  With `searchTerm`
absent: a request missing any of the four keys yields 422 with the store
unchanged; with all four keys present (empty-valued or not) the question is
inserted, the total question count goes up by exactly one, and the new
question is among the matches of a search on its text. -/
theorem create_validates_presence (store : List Question) (body : CreateBody)
    (hns : body.searchTerm = none) :
    ((body.question = none ∨ body.answer = none ∨ body.category = none
        ∨ body.difficulty = none) →
      create_question store body = (store, 422, none))
    ∧ (∀ q a c d, body.question = some q → body.answer = some a →
        body.category = some c → body.difficulty = some d →
        (create_question store body).2.1 = 200
        ∧ (create_question store body).1.length = store.length + 1
        ∧ (create_question store body).2.2 = some (store.length + 1)
        ∧ (⟨freshId store, q, a, c, d⟩ : Question) ∈
            ((create_question store body).1.filter
              (fun x => ilikeMatch x.question q))) := by
  constructor
  · intro hmiss
    rcases hq : body.question with _ | q <;>
      rcases ha : body.answer with _ | a <;>
        rcases hc : body.category with _ | c <;>
          rcases hd : body.difficulty with _ | d <;>
            simp_all [create_question, hns]
  · intro q a c d hq ha hc hd
    refine ⟨?_, ?_, ?_, ?_⟩ <;>
      simp [create_question, hns, hq, ha, hc, hd, insertQuestion, ilikeMatch_self]

/-- Witness for C6 (amended): a request missing the question key is 422; a
complete request is 200 and grows the store by one. -/
theorem create_validates_presence_witness :
    create_question [] ⟨none, none, some "a", some 1, some 1⟩ = ([], 422, none)
    ∧ (create_question [] ⟨none, some "Q?", some "A", some 1, some 2⟩).2.1 = 200
    ∧ (create_question [] ⟨none, some "Q?", some "A", some 1, some 2⟩).1.length
        = ([] : List Question).length + 1 :=
  ⟨(create_validates_presence [] _ rfl).1 (Or.inl rfl),
   ((create_validates_presence [] _ rfl).2 "Q?" "A" 1 2 rfl rfl rfl rfl).1,
   ((create_validates_presence [] _ rfl).2 "Q?" "A" 1 2 rfl rfl rfl rfl).2.1⟩

theorem paginate_sublist {α : Type} (page : Int) (xs : List α) :
    (paginate page xs).Sublist xs := by
  unfold paginate pySlice
  exact List.Sublist.trans (List.drop_sublist _ _) (List.take_sublist _ _)

/-- C8 counterexample: eleven stored questions all match the search term "a",
yet the reported `total_questions` for page 1 is the page length 10, not the
match count 11. -/
theorem search_total_counterexample :
    (searchQuestions storeEleven "a" 1).2.1 = 10
    ∧ (storeEleven.filter (fun q => ilikeMatch q.question "a")).length = 11 := by
  constructor
  · decide
  · decide

/-- C8 (amended): the search response is the requested page of exactly the
questions whose text contains the term as a case-insensitive substring, but
the reported `total_questions` is the length of the returned page — it equals
the total match count only when all matches fit on the page. -/
theorem search_page_and_total (store : List Question) (term : String)
    (page : Int) :
    (searchQuestions store term page).1
        = paginate page (store.filter (fun q => ilikeMatch q.question term))
    ∧ (searchQuestions store term page).2.1
        = (searchQuestions store term page).1.length
    ∧ ∀ q ∈ (searchQuestions store term page).1,
        q ∈ store ∧ ilikeMatch q.question term = true := by
  refine ⟨rfl, rfl, fun q hq => ?_⟩
  have hsub : (searchQuestions store term page).1.Sublist
      (store.filter (fun x => ilikeMatch x.question term)) :=
    paginate_sublist page _
  have hmem := hsub.subset hq
  exact ⟨(List.mem_filter.1 hmem).1, (List.mem_filter.1 hmem).2⟩

/-- Witness for C8 (amended): the stored question matches the search "h2o". -/
theorem search_page_and_total_witness :
    qA ∈ [qA] ∧ ilikeMatch (Question.question qA) "h2o" = true :=
  (search_page_and_total [qA] "h2o" 1).2.2 qA (by decide)

end Trivia
